import Mathlib

/-!
Verification development for the qng_agent workflow engine.

The definitions below are a shallow embedding of the Go sources:
  - internal/qng nodes file (task decomposer, swap/stake executors,
    signature validator, result aggregator, `checkDependentTasks`),
  - internal/qng/langgraph.go (`ContinueWithSignature`),
  - internal/rpc/client.go (`WaitForTransactionConfirmation`),
  - internal/mcp/qng_server.go (session registry and `submitSignature`).

Dynamic Go values (`map[string]any`) are embedded as association lists over a
small value universe; Go map writes replace in place, reads return the stored
value or fail the type assertion.  Fallible Go functions return `Except`;
side channels that matter to the claims (which contract payloads get built,
whether the chain is contacted) are made explicit as returned traces.
-/

namespace QngAgent

/-! ## Association-list maps (Go `map[k]v` with in-place update) -/

def lookupA {κ α : Type} [DecidableEq κ] : List (κ × α) → κ → Option α
  | [], _ => none
  | (k', v') :: rest, k => if k' = k then some v' else lookupA rest k

def insertA {κ α : Type} [DecidableEq κ] : List (κ × α) → κ → α → List (κ × α)
  | [], k, v => [(k, v)]
  | (k', v') :: rest, k, v =>
      if k' = k then (k, v) :: rest else (k', v') :: insertA rest k v

def eraseA {κ α : Type} [DecidableEq κ] : List (κ × α) → κ → List (κ × α)
  | [], _ => []
  | (k', v') :: rest, k =>
      if k' = k then eraseA rest k else (k', v') :: eraseA rest k

theorem lookupA_insertA {κ α : Type} [DecidableEq κ]
    (m : List (κ × α)) (k k' : κ) (v : α) :
    lookupA (insertA m k v) k' = if k' = k then some v else lookupA m k' := by
  induction m with
  | nil =>
      simp only [insertA, lookupA]
      by_cases h : k = k'
      · subst h
        simp
      · rw [if_neg h, if_neg (fun hh => h hh.symm)]
  | cons hd tl ih =>
      obtain ⟨k₀, v₀⟩ := hd
      by_cases h₀ : k₀ = k
      · subst h₀
        simp only [insertA, if_pos rfl, lookupA]
        by_cases h : k₀ = k'
        · subst h
          rw [if_pos rfl, if_pos rfl]
        · rw [if_neg h, if_neg h, if_neg (fun hh : k' = k₀ => h hh.symm)]
      · simp only [insertA, if_neg h₀, lookupA]
        by_cases h : k₀ = k'
        · subst h
          rw [if_pos rfl, if_neg h₀, if_pos rfl]
        · rw [if_neg h, ih]
          by_cases hk : k' = k
          · rw [if_pos hk, if_pos hk]
          · rw [if_neg hk, if_neg hk, if_neg h]

theorem lookupA_eraseA_ne {κ α : Type} [DecidableEq κ]
    (m : List (κ × α)) (k k' : κ) (hne : k' ≠ k) :
    lookupA (eraseA m k) k' = lookupA m k' := by
  induction m with
  | nil => rfl
  | cons hd tl ih =>
      obtain ⟨k₀, v₀⟩ := hd
      by_cases h₀ : k₀ = k
      · subst h₀
        have he : eraseA ((k₀, v₀) :: tl) k₀ = eraseA tl k₀ := by
          simp [eraseA]
        rw [he, ih]
        simp only [lookupA]
        rw [if_neg (fun hh : k₀ = k' => hne hh.symm)]
      · simp only [eraseA, if_neg h₀, lookupA]
        by_cases h : k₀ = k'
        · rw [if_pos h, if_pos h]
        · rw [if_neg h, if_neg h, ih]

theorem lookupA_eraseA_self {κ α : Type} [DecidableEq κ]
    (m : List (κ × α)) (k : κ) : lookupA (eraseA m k) k = none := by
  induction m with
  | nil => rfl
  | cons hd tl ih =>
      obtain ⟨k₀, v₀⟩ := hd
      by_cases h₀ : k₀ = k
      · simp only [eraseA, if_pos h₀]
        exact ih
      · simp only [eraseA, if_neg h₀, lookupA]
        exact ih

/-! ## JSON values (the shape `encoding/json.Unmarshal` produces) -/

inductive Json where
  | null : Json
  | bool (b : Bool) : Json
  | str (s : String) : Json
  | num (raw : String) : Json
  | arr (elems : List Json) : Json
  | obj (fields : List (String × Json)) : Json

/-- A decomposed task, Go `map[string]any` (values decoded from JSON or
    constructed by the fallback parser). -/
abbrev TaskMap := List (String × Json)

/-! ### A small JSON reader standing for `json.Unmarshal`

Fuel-indexed recursive descent; `goUnmarshalMap` accepts exactly one JSON
value surrounded by whitespace (Go rejects trailing data) and requires the
top level to decode into a `map[string]any`. -/

def isJsonWs (c : Char) : Bool :=
  c = ' ' || c = '\t' || c = '\n' || c = '\r'

def skipWs : List Char → List Char
  | [] => []
  | c :: rest => if isJsonWs c then skipWs rest else c :: rest

def hexVal (c : Char) : Option Nat :=
  if '0' ≤ c ∧ c ≤ '9' then some (c.toNat - '0'.toNat)
  else if 'a' ≤ c ∧ c ≤ 'f' then some (c.toNat - 'a'.toNat + 10)
  else if 'A' ≤ c ∧ c ≤ 'F' then some (c.toNat - 'A'.toNat + 10)
  else none

/-- Decode one backslash escape of a JSON string literal. -/
def decodeEscape : List Char → Option (Char × List Char)
  | '"' :: rest => some ('"', rest)
  | '\\' :: rest => some ('\\', rest)
  | '/' :: rest => some ('/', rest)
  | 'b' :: rest => some ('\x08', rest)
  | 'f' :: rest => some ('\x0c', rest)
  | 'n' :: rest => some ('\n', rest)
  | 'r' :: rest => some ('\r', rest)
  | 't' :: rest => some ('\t', rest)
  | 'u' :: a :: b :: c :: d :: rest => do
      let va ← hexVal a
      let vb ← hexVal b
      let vc ← hexVal c
      let vd ← hexVal d
      pure (Char.ofNat (((va * 16 + vb) * 16 + vc) * 16 + vd), rest)
  | _ => none

/-- Parse the body of a JSON string literal (the opening quote already
    consumed); returns the decoded string and the rest after the
    closing quote. -/
def parseStrBody (fuel : Nat) (cs : List Char) (acc : List Char) :
    Option (String × List Char) :=
  match fuel with
  | 0 => none
  | fuel + 1 =>
    match cs with
    | [] => none
    | '"' :: rest => some (String.mk acc.reverse, rest)
    | '\\' :: rest =>
      match decodeEscape rest with
      | some (c, rest') => parseStrBody fuel rest' (c :: acc)
      | none => none
    | c :: rest =>
      if c.toNat < 32 then none else parseStrBody fuel rest (c :: acc)

def isDigitChar (c : Char) : Bool := '0' ≤ c && c ≤ '9'

/-- Raw text of a JSON number (grammar check only; the Go side stores it as a
    `float64`, which no claim inspects numerically). -/
def parseNumRaw (cs : List Char) : Option (String × List Char) :=
  let (neg, cs₁) := match cs with
    | '-' :: rest => (['-'], rest)
    | _ => (([] : List Char), cs)
  match cs₁ with
  | [] => none
  | c :: _ =>
    if ¬ isDigitChar c then none else
    let intPart := cs₁.takeWhile isDigitChar
    let rest₁ := cs₁.dropWhile isDigitChar
    -- Go rejects leading zeros like 01
    if intPart.length > 1 ∧ intPart.headD '0' = '0' then none else
    let (fracPart, rest₂) := match rest₁ with
      | '.' :: r =>
        let ds := r.takeWhile isDigitChar
        if ds.isEmpty then (([] : List Char), rest₁)
        else ('.' :: ds, r.dropWhile isDigitChar)
      | _ => ([], rest₁)
    if (match rest₁ with | '.' :: r => (r.takeWhile isDigitChar).isEmpty | _ => false) then
      none
    else
      let (expPart, rest₃) := match rest₂ with
        | e :: r =>
          if e = 'e' ∨ e = 'E' then
            let (sgn, r₁) := match r with
              | s :: r' => if s = '+' ∨ s = '-' then ([s], r') else (([] : List Char), r)
              | [] => ([], r)
            let ds := r₁.takeWhile isDigitChar
            if ds.isEmpty then (([] : List Char), rest₂)
            else (e :: (sgn ++ ds), r₁.dropWhile isDigitChar)
          else ([], rest₂)
        | [] => ([], rest₂)
      some (String.mk (neg ++ intPart ++ fracPart ++ expPart), rest₃)

mutual

/-- Parse one JSON value. -/
def parseValue (fuel : Nat) (cs : List Char) : Option (Json × List Char) :=
  match fuel with
  | 0 => none
  | fuel + 1 =>
    match skipWs cs with
    | 'n' :: 'u' :: 'l' :: 'l' :: rest => some (Json.null, rest)
    | 't' :: 'r' :: 'u' :: 'e' :: rest => some (Json.bool true, rest)
    | 'f' :: 'a' :: 'l' :: 's' :: 'e' :: rest => some (Json.bool false, rest)
    | '"' :: rest =>
      match parseStrBody fuel rest [] with
      | some (s, rest') => some (Json.str s, rest')
      | none => none
    | '\x7b' :: rest =>
      match skipWs rest with
      | '\x7d' :: rest' => some (Json.obj [], rest')
      | _ =>
        match parseObjFields fuel rest [] with
        | some (fields, rest') => some (Json.obj fields, rest')
        | none => none
    | '[' :: rest =>
      match skipWs rest with
      | ']' :: rest' => some (Json.arr [], rest')
      | _ =>
        match parseArrItems fuel rest [] with
        | some (elems, rest') => some (Json.arr elems, rest')
        | none => none
    | other =>
      match parseNumRaw other with
      | some (raw, rest) => some (Json.num raw, rest)
      | none => none

/-- Parse `item (, item)* ]`, accumulating in order. -/
def parseArrItems (fuel : Nat) (cs : List Char) (acc : List Json) :
    Option (List Json × List Char) :=
  match fuel with
  | 0 => none
  | fuel + 1 =>
    match parseValue fuel cs with
    | none => none
    | some (v, rest) =>
      match skipWs rest with
      | ',' :: rest' => parseArrItems fuel rest' (v :: acc)
      | ']' :: rest' => some ((v :: acc).reverse, rest')
      | _ => none

/-- Parse `"key": value (, "key": value)* }`; later duplicate keys replace
    earlier ones, as in a Go map. -/
def parseObjFields (fuel : Nat) (cs : List Char) (acc : List (String × Json)) :
    Option (List (String × Json) × List Char) :=
  match fuel with
  | 0 => none
  | fuel + 1 =>
    match skipWs cs with
    | '"' :: rest =>
      match parseStrBody fuel rest [] with
      | none => none
      | some (k, rest₁) =>
        match skipWs rest₁ with
        | ':' :: rest₂ =>
          match parseValue fuel rest₂ with
          | none => none
          | some (v, rest₃) =>
            match skipWs rest₃ with
            | ',' :: rest₄ => parseObjFields fuel rest₄ (insertA acc k v)
            | '\x7d' :: rest₄ => some (insertA acc k v, rest₄)
            | _ => none
        | _ => none
    | _ => none

end

/-- `json.Unmarshal(data, &result)` with `result : map[string]any`: one value,
    optional surrounding whitespace, top level an object (or `null`, which
    leaves the map nil). -/
def goUnmarshalMap (s : String) : Option (List (String × Json)) :=
  match parseValue (s.length + 1) s.data with
  | some (v, rest) =>
    if (skipWs rest).isEmpty then
      match v with
      | Json.obj fields => some fields
      | Json.null => some []
      | _ => none
    else none
  | none => none

/-! ## Task decomposer (`TaskDecomposerNode`)

`parseTasksFromResponse` extracts `response[strings.Index(response, "\x7b") :
strings.LastIndex(response, "\x7d")+1]`, unmarshals it, validates swap pairs,
and otherwise falls back to `fallbackParseFromText(originalUserMessage)`. -/

/-- Go `task[k].(string)`. -/
def taskStr (t : TaskMap) (k : String) : Option String :=
  match lookupA t k with
  | some (Json.str s) => some s
  | _ => none

/-- Go `task["dependency_tx_id"] == nil` (missing key or decoded JSON null). -/
def taskDepIsNil (t : TaskMap) : Bool :=
  match lookupA t "dependency_tx_id" with
  | none => true
  | some Json.null => true
  | _ => false

/-- `TaskDecomposerNode.isSupportedTokenPair`: the only pairs are MEER→MTK and
    MTK→MEER. -/
def isSupportedTokenPair (fromToken toToken : String) : Bool :=
  (fromToken == "MEER" && toToken == "MTK") ||
  (fromToken == "MTK" && toToken == "MEER")

/-- The conversion/validation loop of `parseTasksFromResponse`: non-object
    entries are skipped; a swap task with an unsupported pair invalidates the
    whole response (Go sets `allTasksValid = false`, modelled as `none`). -/
def collectTasks : List Json → Option (List TaskMap)
  | [] => some []
  | Json.obj t :: rest =>
    (match taskStr t "type" with
     | some taskType =>
       if taskType = "swap" then
         let fromToken := (taskStr t "from_token").getD ""
         let toToken := (taskStr t "to_token").getD ""
         if isSupportedTokenPair fromToken toToken then
           (collectTasks rest).map (t :: ·)
         else none
       else (collectTasks rest).map (t :: ·)
     | none => (collectTasks rest).map (t :: ·))
  | _ :: rest => collectTasks rest

/-- `strings.Index(s, c)` for a single character. -/
def indexOfChar : List Char → Char → Option Nat
  | [], _ => none
  | c' :: rest, c =>
    if c' = c then some 0 else (indexOfChar rest c).map (· + 1)

/-- `strings.LastIndex(s, c)` for a single character. -/
def lastIndexOfChar : List Char → Char → Option Nat
  | [], _ => none
  | c' :: rest, c =>
    match lastIndexOfChar rest c with
    | some i => some (i + 1)
    | none => if c' = c then some 0 else none

/-- The span `response[jsonStart : jsonEnd+1]` with
    `jsonStart = strings.Index(response, "\x7b")` and
    `jsonEnd = strings.LastIndex(response, "\x7d")`, guarded by
    `jsonStart >= 0 && jsonEnd > jsonStart`. -/
def extractJsonSpan (response : String) : Option String :=
  match indexOfChar response.data '\x7b', lastIndexOfChar response.data '\x7d' with
  | some jsonStart, some jsonEnd =>
    if jsonStart < jsonEnd then
      some (String.mk ((response.data.drop jsonStart).take (jsonEnd - jsonStart + 1)))
    else none
  | _, _ => none

/-- Unmarshal the extracted span and run the task validation loop; `none`
    is every path on which the Go code falls through to the fallback. -/
def tasksOfJsonStr (jsonStr : String) : Option (List TaskMap) :=
  match goUnmarshalMap jsonStr with
  | some result =>
    match lookupA result "tasks" with
    | some (Json.arr tasks) => collectTasks tasks
    | _ => none
  | none => none

/-! ### `fallbackParseFromText` and its three `regexp` patterns -/

def isPrefixOfL : List Char → List Char → Bool
  | [], _ => true
  | _ :: _, [] => false
  | p :: ps, c :: cs => p = c && isPrefixOfL ps cs

/-- `strings.Contains`. -/
def containsSub : List Char → List Char → Bool
  | [], pat => pat.isEmpty
  | c :: rest, pat => isPrefixOfL pat (c :: rest) || containsSub rest pat

/-- `strings.Index` (substring). -/
def indexOfSub : List Char → List Char → Option Nat
  | [], pat => if pat.isEmpty then some 0 else none
  | c :: rest, pat =>
    if isPrefixOfL pat (c :: rest) then some 0
    else (indexOfSub rest pat).map (· + 1)

/-- `strings.ToLower` (ASCII case fold; CJK characters are unaffected in both
    Go and this model). -/
def toLowerStr (s : String) : String := String.mk (s.data.map Char.toLower)

/-- RE2 whitespace class for the regex metacharacter. -/
def isRe2Space (c : Char) : Bool :=
  c = ' ' || c = '\t' || c = '\n' || c = '\x0c' || c = '\r'

/-- RE2 dot does not cross a newline: the searchable segment. -/
def sameLineSeg (cs : List Char) : List Char := cs.takeWhile (· ≠ '\n')

/-- One anchored attempt of pattern 1, from the nodes file:
    digits after the swap keyword, then the literal token name `meer`,
    then `mtk` later on the same line; the capture is the digit run. -/
def matchDigitsMeerMtkAt (cs : List Char) : Option String :=
  match cs with
  | '兑' :: '换' :: rest =>
    let ds := rest.takeWhile isDigitChar
    if ds.isEmpty then none else
    let rest₁ := rest.dropWhile isDigitChar
    if isPrefixOfL ['m', 'e', 'e', 'r'] rest₁ then
      if containsSub (sameLineSeg (rest₁.drop 4)) ['m', 't', 'k'] then
        some (String.mk ds)
      else none
    else none
  | _ => none

/-- `meer` somewhere in the segment with `mtk` after it. -/
def hasMeerThenMtk : List Char → Bool
  | [] => false
  | c :: rest =>
    (isPrefixOfL ['m', 'e', 'e', 'r'] (c :: rest) &&
      containsSub ((c :: rest).drop 4) ['m', 't', 'k']) ||
    hasMeerThenMtk rest

/-- One anchored attempt of pattern 2: digits, then anything on the same line,
    then `meer`, then `mtk`. -/
def matchDigitsAnyMeerMtkAt (cs : List Char) : Option String :=
  match cs with
  | '兑' :: '换' :: rest =>
    let ds := rest.takeWhile isDigitChar
    if ds.isEmpty then none else
    if hasMeerThenMtk (sameLineSeg (rest.dropWhile isDigitChar)) then
      some (String.mk ds)
    else none
  | _ => none

/-- One anchored attempt of pattern 3: `swap`, whitespace, digits, whitespace,
    `meer`. -/
def matchSwapDigitsMeerAt (cs : List Char) : Option String :=
  match cs with
  | 's' :: 'w' :: 'a' :: 'p' :: rest =>
    if (rest.takeWhile isRe2Space).isEmpty then none else
    let rest₁ := rest.dropWhile isRe2Space
    let ds := rest₁.takeWhile isDigitChar
    if ds.isEmpty then none else
    let rest₂ := rest₁.dropWhile isDigitChar
    if (rest₂.takeWhile isRe2Space).isEmpty then none else
    if isPrefixOfL ['m', 'e', 'e', 'r'] (rest₂.dropWhile isRe2Space) then
      some (String.mk ds)
    else none
  | _ => none

/-- Leftmost match: try the anchored attempt at every position. -/
def scanFor (attempt : List Char → Option String) : List Char → Option String
  | [] => attempt []
  | c :: rest =>
    match attempt (c :: rest) with
    | some a => some a
    | none => scanFor attempt rest

/-- `FindStringSubmatch` capture for the amount, tried pattern by pattern in
    source order; `"10"` is the declared default. -/
def fallbackAmount (lcs : List Char) : String :=
  match scanFor matchDigitsMeerMtkAt lcs with
  | some a => a
  | none =>
    match scanFor matchDigitsAnyMeerMtkAt lcs with
    | some a => a
    | none =>
      match scanFor matchSwapDigitsMeerAt lcs with
      | some a => a
      | none => "10"

/-- The token-direction disambiguation in `fallbackParseFromText`. -/
def fallbackDirection (lcs : List Char) : String × String :=
  if containsSub lcs "meer".data && containsSub lcs "mtk".data then
    let meerIndex := (indexOfSub lcs "meer".data).getD 0
    let mtkIndex := (indexOfSub lcs "mtk".data).getD 0
    if meerIndex < mtkIndex && containsSub lcs "兑换".data then ("MEER", "MTK")
    else if mtkIndex < meerIndex then ("MTK", "MEER")
    else ("MEER", "MTK")
  else ("MEER", "MTK")

/-- `TaskDecomposerNode.fallbackParseFromText`. -/
def fallbackParseFromText (userMessage : String) : List TaskMap :=
  let lcs := (toLowerStr userMessage).data
  let tasks₁ : List TaskMap :=
    if containsSub lcs "swap".data || containsSub lcs "兑换".data then
      let amount := fallbackAmount lcs
      let dir := fallbackDirection lcs
      [[("id", Json.str "task_1"), ("type", Json.str "swap"),
        ("from_token", Json.str dir.1), ("to_token", Json.str dir.2),
        ("amount", Json.str amount), ("dependency_tx_id", Json.null),
        ("description",
          Json.str ("兑换" ++ amount ++ " " ++ dir.1 ++ "为" ++ dir.2))]]
    else []
  if containsSub lcs "stake".data || containsSub lcs "质押".data then
    let hasSwap := containsSub lcs "swap".data || containsSub lcs "兑换".data
    if hasSwap && tasks₁.length > 0 then
      tasks₁ ++
        [[("id", Json.str "task_2"), ("type", Json.str "stake"),
          ("token", Json.str "MTK"), ("amount", Json.str "all_from_previous"),
          ("pool", Json.str "compound"), ("dependency_tx_id", Json.str "task_1"),
          ("description", Json.str "将兑换得到的MTK进行质押")]]
    else
      tasks₁ ++
        [[("id", Json.str "task_1"), ("type", Json.str "stake"),
          ("token", Json.str "MTK"), ("amount", Json.str "100"),
          ("pool", Json.str "compound"), ("dependency_tx_id", Json.null),
          ("description", Json.str "质押MTK代币")]]
  else tasks₁

/-- `TaskDecomposerNode.parseTasksFromResponse` (the revision wired into the
    graph): span extraction, unmarshal, validation, and the fallback applied to
    the original user message. -/
def parseTasksFromResponse (response originalUserMessage : String) : List TaskMap :=
  match extractJsonSpan response with
  | some jsonStr =>
    match tasksOfJsonStr jsonStr with
    | some taskList => taskList
    | none => fallbackParseFromText originalUserMessage
  | none => fallbackParseFromText originalUserMessage

/-- First task whose dependency pointer is nil and whose type names an
    executor, in decomposition order. -/
def noDepExecutor : List TaskMap → Option String
  | [] => none
  | t :: rest =>
    if taskDepIsNil t then
      match taskStr t "type" with
      | some taskType =>
        if taskType = "swap" then some "swap_executor"
        else if taskType = "stake" then some "stake_executor"
        else noDepExecutor rest
      | none => noDepExecutor rest
    else noDepExecutor rest

/-- `TaskDecomposerNode.determineNextNodes`: route to the first dependency-free
    task's executor; if every task carries a dependency, force the first task;
    otherwise aggregate. -/
def determineNextNodes (tasks : List TaskMap) : List String :=
  match tasks with
  | [] => ["result_aggregator"]
  | first :: _ =>
    match noDepExecutor tasks with
    | some node => [node]
    | none =>
      match taskStr first "type" with
      | some taskType =>
        if taskType = "swap" then ["swap_executor"]
        else if taskType = "stake" then ["stake_executor"]
        else ["result_aggregator"]
      | none => ["result_aggregator"]

/-! ### Spec-side description of the extraction (for claim C8) -/

/-- Walk a brace-balanced span: `depth` is the number of open braces. -/
def balancedLoop : List Char → Nat → List Char → Option (List Char)
  | [], _, _ => none
  | c :: rest, depth, acc =>
    if c = '\x7b' then balancedLoop rest (depth + 1) (c :: acc)
    else if c = '\x7d' then
      if depth = 1 then some (c :: acc).reverse
      else balancedLoop rest (depth - 1) (c :: acc)
    else balancedLoop rest depth (c :: acc)

def suffixFromLbrace : List Char → Option (List Char)
  | [] => none
  | c :: rest => if c = '\x7b' then some (c :: rest) else suffixFromLbrace rest

/-- Modelled from the spec: "tolerate surrounding prose and extract the first
    balanced `...` brace span of the response before parsing" — the span that
    starts at the first opening brace and ends at the brace closing it. -/
def firstBalancedBraceSpan (s : String) : Option String := do
  let tl ← suffixFromLbrace s.data
  let span ← balancedLoop tl 0 []
  pure (String.mk span)

/-- Modelled from the spec: the parse pipeline claim C8 describes — first
    balanced brace span, then the same unmarshal/validate/fallback steps. -/
def specParseTasksFromResponse (response originalUserMessage : String) : List TaskMap :=
  match firstBalancedBraceSpan response with
  | some jsonStr =>
    match tasksOfJsonStr jsonStr with
    | some taskList => taskList
    | none => fallbackParseFromText originalUserMessage
  | none => fallbackParseFromText originalUserMessage

/-! ## Node data maps

Values the nodes store in `input.Data` (Go `map[string]any`). -/

inductive DVal where
  | vnil
  | vstr (s : String)
  | vbool (b : Bool)
  | vtasks (ts : List TaskMap)
  | vstrs (l : List String)

abbrev DataMap := List (String × DVal)

/-- The `completed_tasks` list the executors read (`[]string` assertion,
    defaulting to empty). -/
def completedOf (data : DataMap) : List String :=
  match lookupA data "completed_tasks" with
  | some (DVal.vstrs l) => l
  | _ => []

/-- The task-selection loop shared verbatim by `findCurrentSwapTask` and
    `findCurrentStakeTask`: first task of the wanted type that is not already
    completed and whose dependency is nil or completed. -/
def findExecutable (ty : String) (completed : List String) : List TaskMap → Option TaskMap
  | [] => none
  | task :: rest =>
    if taskStr task "type" = some ty then
      let taskID := (taskStr task "id").getD ""
      if completed.contains taskID then findExecutable ty completed rest
      else
        match lookupA task "dependency_tx_id" with
        | none => some task
        | some Json.null => some task
        | some (Json.str depID) =>
          if completed.contains depID then some task
          else findExecutable ty completed rest
        | some _ => findExecutable ty completed rest
    else findExecutable ty completed rest

def findCurrentTaskOfType (ty : String) (data : DataMap) : Except String TaskMap :=
  match lookupA data "tasks" with
  | some (DVal.vtasks tasks) =>
    match findExecutable ty (completedOf data) tasks with
    | some task => Except.ok task
    | none => Except.error ("no executable " ++ ty ++ " task found")
  | _ => Except.error "tasks not found in input data"

/-- `SwapExecutorNode.findCurrentSwapTask`. -/
def findCurrentSwapTask (data : DataMap) : Except String TaskMap :=
  findCurrentTaskOfType "swap" data

/-- `StakeExecutorNode.findCurrentStakeTask`. -/
def findCurrentStakeTask (data : DataMap) : Except String TaskMap :=
  findCurrentTaskOfType "stake" data

/-! ## Contract requests and the executor nodes -/

structure SwapRequest where
  fromToken : String
  toToken : String
  amount : String

structure StakeRequest where
  token : String
  amount : String
  action : String

structure TransactionData where
  toAddr : String
  value : String
  data : String
  gasLimit : String
  gasPrice : String

/-- `SwapExecutorNode.buildSwapRequestFromTask`; the `all_from_previous`
    sentinel is replaced by the constant `"10"` (the source comments that the
    amount should come from the previous task's transaction result). -/
def buildSwapRequestFromTask (task : TaskMap) (_data : DataMap) : Except String SwapRequest :=
  match taskStr task "from_token" with
  | none => Except.error "from_token not found in task"
  | some fromToken =>
    match taskStr task "to_token" with
    | none => Except.error "to_token not found in task"
    | some toToken =>
      match taskStr task "amount" with
      | none => Except.error "amount not found in task"
      | some amount =>
        Except.ok { fromToken := fromToken, toToken := toToken,
                    amount := if amount = "all_from_previous" then "10" else amount }

/-- `StakeExecutorNode.buildStakeRequestFromTask`; the `all_from_previous`
    sentinel is replaced by the constant `"1000"` ("assume the previous task
    swapped 1 MEER into 1000 MTK" per the source comment). -/
def buildStakeRequestFromTask (task : TaskMap) (_data : DataMap) : Except String StakeRequest :=
  match taskStr task "token" with
  | none => Except.error "token not found in task"
  | some token =>
    match taskStr task "amount" with
    | none => Except.error "amount not found in task"
    | some amount =>
      Except.ok { token := token,
                  amount := if amount = "all_from_previous" then "1000" else amount,
                  action := "stake" }

/-- The contract manager as the executors consume it: three payload builders
    (`contracts.ContractManager`), injected at graph construction. -/
structure ContractManager where
  buildSwapTransaction : SwapRequest → Except String TransactionData
  buildApproveTransaction : StakeRequest → Except String TransactionData
  buildStakeTransaction : StakeRequest → Except String TransactionData

/-- Trace of payload-builder invocations an executor performs. -/
inductive BuildCall where
  | approve (req : StakeRequest)
  | stake (req : StakeRequest)
  | swap (req : SwapRequest)

abbrev AuthRequest := List (String × String)

structure NodeOutput where
  data : DataMap
  nextNodes : List String
  needUserAuth : Bool
  authRequest : Option AuthRequest
  completed : Bool

/-- The `authRequest` map built for the approve sub-step of the stake
    executor. -/
def approveAuthRequest (req : StakeRequest) (txd : TransactionData) : AuthRequest :=
  [("type", "transaction_signature"), ("action", "approve"),
   ("token", req.token), ("amount", req.amount), ("spender", "MTK质押合约"),
   ("gas_fee", "0.001 ETH"), ("title", "MTK代币授权 - 质押准备"),
   ("description", "授权质押合约使用您的 " ++ req.amount ++ " " ++ req.token ++
     " 代币，这是质押操作的必要步骤"),
   ("step_info", "步骤 1/2: 授权代币使用权限"),
   ("to_address", txd.toAddr), ("value", txd.value), ("data", txd.data),
   ("gas_limit", txd.gasLimit), ("gas_price", txd.gasPrice)]

/-- The `authRequest` map built for the stake transaction itself. -/
def stakeAuthRequest (req : StakeRequest) (txd : TransactionData) : AuthRequest :=
  [("type", "transaction_signature"), ("action", "stake"),
   ("token", req.token), ("amount", req.amount), ("pool", "compound"),
   ("gas_fee", "0.001 ETH"), ("apy", "8.5%"),
   ("title", "MTK代币质押 - 开始赚取奖励"),
   ("description", "将 " ++ req.amount ++ " " ++ req.token ++
     " 代币质押到合约中，预计年化收益率 8.5%"),
   ("step_info", "步骤 2/2: 执行质押操作"),
   ("to_address", txd.toAddr), ("value", txd.value), ("data", txd.data),
   ("gas_limit", txd.gasLimit), ("gas_price", txd.gasPrice)]

/-- The `authRequest` map built by the swap executor. -/
def swapAuthRequest (req : SwapRequest) (txd : TransactionData) : AuthRequest :=
  [("type", "transaction_signature"), ("action", "swap"),
   ("from_token", req.fromToken), ("to_token", req.toToken),
   ("amount", req.amount), ("gas_fee", "0.001 ETH"), ("slippage", "0.5%"),
   ("to_address", txd.toAddr), ("value", txd.value), ("data", txd.data),
   ("gas_limit", txd.gasLimit), ("gas_price", txd.gasPrice)]

/-- `StakeExecutorNode.Execute` (manager injected and non-nil, as wired by
    `NewLangGraph`): selects the ready stake task; without the per-task
    `_approve_completed` flag it builds only the approve payload and records
    `<taskId>_current_step = approve`; with the flag it builds the stake
    payload.  The second component records which payload builders ran. -/
def stakeExecutorExecute (cm : ContractManager) (data : DataMap) :
    Except String NodeOutput × List BuildCall :=
  match findCurrentStakeTask data with
  | Except.error e => (Except.error e, [])
  | Except.ok currentTask =>
    match buildStakeRequestFromTask currentTask data with
    | Except.error e => (Except.error e, [])
    | Except.ok stakeRequest =>
      let taskID := (taskStr currentTask "id").getD ""
      if (lookupA data (taskID ++ "_approve_completed")).isNone then
        match cm.buildApproveTransaction stakeRequest with
        | Except.error e =>
          (Except.error ("failed to build approve transaction: " ++ e),
           [BuildCall.approve stakeRequest])
        | Except.ok approveData =>
          (Except.ok
            { data := insertA data (taskID ++ "_current_step") (DVal.vstr "approve"),
              nextNodes := ["signature_validator"], needUserAuth := true,
              authRequest := some (approveAuthRequest stakeRequest approveData),
              completed := false },
           [BuildCall.approve stakeRequest])
      else
        match cm.buildStakeTransaction stakeRequest with
        | Except.error e =>
          (Except.error ("failed to build stake transaction: " ++ e),
           [BuildCall.stake stakeRequest])
        | Except.ok txData =>
          (Except.ok
            { data := data, nextNodes := ["signature_validator"], needUserAuth := true,
              authRequest := some (stakeAuthRequest stakeRequest txData),
              completed := false },
           [BuildCall.stake stakeRequest])

/-- `SwapExecutorNode.Execute` (manager injected and non-nil). -/
def swapExecutorExecute (cm : ContractManager) (data : DataMap) :
    Except String NodeOutput × List BuildCall :=
  match findCurrentSwapTask data with
  | Except.error e => (Except.error e, [])
  | Except.ok currentTask =>
    match buildSwapRequestFromTask currentTask data with
    | Except.error e => (Except.error e, [])
    | Except.ok swapRequest =>
      match cm.buildSwapTransaction swapRequest with
      | Except.error e =>
        (Except.error ("failed to build transaction: " ++ e),
         [BuildCall.swap swapRequest])
      | Except.ok txData =>
        (Except.ok
          { data := data, nextNodes := ["signature_validator"], needUserAuth := true,
            authRequest := some (swapAuthRequest swapRequest txData),
            completed := false },
         [BuildCall.swap swapRequest])

/-! ## `SignatureValidatorNode.checkDependentTasks` (edge resolution after the
validator) -/

/-- First task whose `<taskId>_current_step` entry equals `"approve"`. -/
def findApproveStepTask (tasks : List TaskMap) (data : DataMap) : Option String :=
  match tasks with
  | [] => none
  | task :: rest =>
    match taskStr task "id" with
    | some taskID =>
      match lookupA data (taskID ++ "_current_step") with
      | some (DVal.vstr currentStep) =>
        if currentStep = "approve" then some taskID
        else findApproveStepTask rest data
      | _ => findApproveStepTask rest data
    | none => findApproveStepTask rest data

/-- First task with a string id, a nil dependency pointer, and no completion
    record — the task the validator deems "just completed" (Go leaves the
    variable at `""` when none qualifies). -/
def findNewlyCompleted (tasks : List TaskMap) (completed : List String) : String :=
  match tasks with
  | [] => ""
  | task :: rest =>
    match taskStr task "id" with
    | some taskID =>
      if taskDepIsNil task then
        if completed.contains taskID then findNewlyCompleted rest completed
        else taskID
      else findNewlyCompleted rest completed
    | none => findNewlyCompleted rest completed

/-- First task whose dependency pointer equals the just-completed id, routed
    to its executor by kind. -/
def findDependentRoute (tasks : List TaskMap) (completedTaskID : String) :
    Option (List String) :=
  match tasks with
  | [] => none
  | task :: rest =>
    match taskStr task "id" with
    | some _ =>
      match lookupA task "dependency_tx_id" with
      | some (Json.str d) =>
        if d = completedTaskID then
          match taskStr task "type" with
          | some taskType =>
            if taskType = "swap" then some ["swap_executor"]
            else if taskType = "stake" then some ["stake_executor"]
            else findDependentRoute rest completedTaskID
          | none => findDependentRoute rest completedTaskID
        else findDependentRoute rest completedTaskID
      | _ => findDependentRoute rest completedTaskID
    | none => findDependentRoute rest completedTaskID

/-- `SignatureValidatorNode.checkDependentTasks`: on a pending approve
    sub-step, mark it completed and route back into the stake executor;
    otherwise record the just-completed task and route to a dependent task's
    executor or the aggregator.  `none` is the Go panic on the unchecked
    `data["tasks"].([]map[string]any)` assertion; the returned map reflects
    the in-place mutations. -/
def checkDependentTasks (data : DataMap) (completedTxHash : String) :
    Option (List String × DataMap) :=
  match lookupA data "tasks" with
  | some (DVal.vtasks tasks) =>
    match findApproveStepTask tasks data with
    | some taskID =>
      let d₁ := insertA data (taskID ++ "_approve_completed") (DVal.vbool true)
      let d₂ := insertA d₁ (taskID ++ "_approve_tx_hash") (DVal.vstr completedTxHash)
      some (["stake_executor"], eraseA d₂ (taskID ++ "_current_step"))
    | none =>
      let data₁ :=
        match lookupA data "completed_tasks" with
        | none => insertA data "completed_tasks" (DVal.vstrs [])
        | some DVal.vnil => insertA data "completed_tasks" (DVal.vstrs [])
        | some _ => data
      let completedTasks := completedOf data₁
      let completedTaskID := findNewlyCompleted tasks completedTasks
      let data₂ :=
        if completedTaskID ≠ "" then
          insertA
            (insertA data₁ "completed_tasks"
              (DVal.vstrs (completedTasks ++ [completedTaskID])))
            (completedTaskID ++ "_tx_hash") (DVal.vstr completedTxHash)
        else data₁
      match findDependentRoute tasks completedTaskID with
      | some route => some (route, data₂)
      | none => some (["result_aggregator"], data₂)
  | _ => none

/-! ## Confirmation waiter (`rpc.Client.WaitForTransactionConfirmation`) -/

structure TransactionReceipt where
  transactionHash : String
  blockNumber : String
  status : String
  success : Bool

/-- `GetTransactionReceipt` derives `Success` from the hex status flag. -/
def mkReceipt (transactionHash blockNumber status : String) : TransactionReceipt :=
  { transactionHash := transactionHash, blockNumber := blockNumber,
    status := status, success := status == "0x1" }

/-- `fmt.Sscanf(s, "0x%x", &v)`: literal `0x`, then at least one hex digit
    (trailing bytes ignored). -/
def goSscanfHex (s : String) : Option Int :=
  match s.data with
  | '0' :: 'x' :: rest =>
    let ds := rest.takeWhile (fun c => (hexVal c).isSome)
    if ds.isEmpty then none
    else some (Int.ofNat (ds.foldl (fun acc c => acc * 16 + (hexVal c).getD 0) 0))
  | _ => none

/-- What one poll tick observes from the chain endpoint. -/
inductive ReceiptFetch where
  | fetchErr
  | notIncluded
  | fetched (r : TransactionReceipt)

inductive BlockNumFetch where
  | fetchErr
  | height (n : Int)

structure TickObs where
  receipt : ReceiptFetch
  block : BlockNumFetch

inductive TickOutcome where
  | retry
  | failed (r : TransactionReceipt)
  | confirmed (r : TransactionReceipt)

/-- One iteration of the `ticker.C` loop: lookup errors and absent receipts
    retry; a receipt with `Success = false` returns the definitive failure;
    a successful receipt is confirmed once
    `currentBlock - txBlock + 1 >= requiredConfirmations`. -/
def pollTick (requiredConfirmations : Int) (obs : TickObs) : TickOutcome :=
  match obs.receipt with
  | ReceiptFetch.fetchErr => TickOutcome.retry
  | ReceiptFetch.notIncluded => TickOutcome.retry
  | ReceiptFetch.fetched r =>
    if ¬ r.success then TickOutcome.failed r
    else
      match obs.block with
      | BlockNumFetch.fetchErr => TickOutcome.retry
      | BlockNumFetch.height currentBlock =>
        match goSscanfHex r.blockNumber with
        | none => TickOutcome.retry
        | some txBlock =>
          if currentBlock - txBlock + 1 ≥ requiredConfirmations then
            TickOutcome.confirmed r
          else TickOutcome.retry

/-- The poll loop over the sequence of tick observations; `none` means every
    tick retried and the loop is still polling when the caller's
    timeout/cancellation context fires. -/
def clientWaitForConfirmation (requiredConfirmations : Int) :
    List TickObs → Option TickOutcome
  | [] => none
  | obs :: rest =>
    match pollTick requiredConfirmations obs with
    | TickOutcome.retry => clientWaitForConfirmation requiredConfirmations rest
    | out => some out

/-! ## `SignatureValidatorNode.Execute` -/

/-- Chain interactions the validator can perform after accepting a
    signature. -/
inductive ChainInteraction where
  | simulatedConfirm
  | rpcWait

/-- `SignatureValidatorNode.Execute` together with its private confirmation
    wait.  `rpcOutcome = none` models a nil RPC client (the fixed-delay
    simulated confirmation, which always succeeds); `some out` is the result
    of the client poll loop under the configured timeout.  The second
    component records every chain interaction performed. -/
def signatureValidatorExecute
    (rpcOutcome : Option (Except String TransactionReceipt)) (data : DataMap) :
    Except String NodeOutput × List ChainInteraction :=
  match lookupA data "signature" with
  | some (DVal.vstr signature) =>
    if signature = "" then (Except.error "signature not found in input", [])
    else if signature.utf8ByteSize < 10 then (Except.error "invalid signature", [])
    else
      let data' := insertA (insertA data "signature_verified" (DVal.vbool true))
        "transaction_hash" (DVal.vstr signature)
      match rpcOutcome with
      | none =>
        (Except.ok { data := data', nextNodes := [], needUserAuth := false,
                     authRequest := none, completed := false },
         [ChainInteraction.simulatedConfirm])
      | some (Except.error e) =>
        (Except.error ("transaction confirmation failed: 交易确认失败: " ++ e),
         [ChainInteraction.rpcWait])
      | some (Except.ok receipt) =>
        if ¬ receipt.success then
          (Except.error "transaction confirmation failed: 交易执行失败",
           [ChainInteraction.rpcWait])
        else
          (Except.ok { data := data', nextNodes := [], needUserAuth := false,
                       authRequest := none, completed := false },
           [ChainInteraction.rpcWait])
  | _ => (Except.error "signature not found in input", [])

/-! ## `LangGraph.ContinueWithSignature` -/

abbrev CtxMap := List (String × DVal)

structure NodeInput where
  data : DataMap
  context : CtxMap

/-- The captured `map[string]any` workflow context built by the edge function
    (`current_node`, `node_output`, `input`); an `Option` field models the
    respective failed type assertion. -/
structure WorkflowContextMap where
  currentNode : Option String
  nodeOutput : Option NodeOutput
  input : Option NodeInput

/-- Where `ContinueWithSignature` hands control: either `g.SetEntryPoint`
    followed by `r.Invoke` with the given input, or the immediate final
    result. -/
inductive ContinueResult where
  | invokeAt (entryPoint : String) (input : NodeInput) (updatedOutput : NodeOutput)
  | finalResult (finalData : DataMap) (updatedOutput : NodeOutput)

/-- `LangGraph.ContinueWithSignature` up to the graph re-entry: validates the
    captured context, stores the signature in the captured output's data,
    clears `NeedUserAuth`, and resumes at `NextNodes[0]` (or returns the data
    as final result when there is none). -/
def continueWithSignature (workflowContext : Option WorkflowContextMap)
    (signature : String) : Except String ContinueResult :=
  match workflowContext with
  | none => Except.error "invalid workflow context"
  | some ctx =>
    match ctx.currentNode with
    | none => Except.error "invalid current node in context"
    | some _ =>
      match ctx.nodeOutput with
      | none => Except.error "invalid node output in context"
      | some nodeOutput =>
        match ctx.input with
        | none => Except.error "invalid node input in context"
        | some nodeInput =>
          let updated : NodeOutput :=
            { nodeOutput with
                data := insertA nodeOutput.data "signature" (DVal.vstr signature),
                needUserAuth := false }
          match nodeOutput.nextNodes with
          | nextNode :: _ =>
            Except.ok (ContinueResult.invokeAt nextNode
              { data := updated.data, context := nodeInput.context } updated)
          | [] => Except.ok (ContinueResult.finalResult updated.data updated)

/-! ## Session manager (`mcp.QNGServer`)

The shared `sessions` map stores `*Session` pointers; the heap of a
`ServerState` makes the aliasing explicit: the registry maps both the session
id and the workflow id to one heap reference. -/

structure GoSession where
  id : String
  workflowId : String
  status : String
  message : String
  result : Option DataMap
  wfContext : Option WorkflowContextMap
  signatureRequest : Option AuthRequest
  createdAt : Nat
  updatedAt : Nat

structure ServerState where
  registry : List (String × Nat)
  heap : List (Nat × GoSession)
  nextRef : Nat

def initialServerState : ServerState := { registry := [], heap := [], nextRef := 0 }

def registryLookup (st : ServerState) (k : String) : Option Nat := lookupA st.registry k

def heapLookup (st : ServerState) (r : Nat) : Option GoSession := lookupA st.heap r

/-- Dereference an identifier: registry, then heap. -/
def sessionLookup (st : ServerState) (k : String) : Option GoSession :=
  match registryLookup st k with
  | some r => heapLookup st r
  | none => none

/-- `generateSessionID`: `fmt.Sprintf("session_%d", time.Now().UnixNano())`. -/
def sessionKey (nano : Nat) : String := "session_" ++ Nat.repr nano

/-- `generateWorkflowID`: `fmt.Sprintf("workflow_%d", time.Now().UnixNano())`. -/
def workflowKey (nano : Nat) : String := "workflow_" ++ Nat.repr nano

/-- Mutate the session object behind `ref` (a write through the shared
    pointer). -/
def heapModify (st : ServerState) (ref : Nat) (f : GoSession → GoSession) : ServerState :=
  match lookupA st.heap ref with
  | some s => { st with heap := insertA st.heap ref (f s) }
  | none => st

/-- `updateSessionStatus` (the source also refreshes `CreatedAt`). -/
def updateSessionStatus (st : ServerState) (ref : Nat) (status message : String)
    (now : Nat) : ServerState :=
  heapModify st ref (fun s =>
    { s with status := status, message := message, updatedAt := now, createdAt := now })

/-- `session.Result = ...` / `session.Context = ...` /
    `session.SignatureRequest = ...` in the async workers. -/
def setSessionResult (st : ServerState) (ref : Nat) (res : Option DataMap)
    (c : Option WorkflowContextMap) (sr : Option AuthRequest) : ServerState :=
  heapModify st ref (fun s => { s with result := res, wfContext := c, signatureRequest := sr })

/-- `QNGServer.executeWorkflow`: create the session and store it under both
    generated identifiers (two separate `UnixNano` reads). -/
def executeWorkflow (st : ServerState) (sidNano widNano : Nat) (message : String)
    (now : Nat) : ServerState × String × String :=
  let sid := sessionKey sidNano
  let wid := workflowKey widNano
  let session : GoSession :=
    { id := sid, workflowId := wid, status := "pending", message := message,
      result := none, wfContext := none, signatureRequest := none,
      createdAt := now, updatedAt := now }
  let r := st.nextRef
  ({ registry := insertA (insertA st.registry sid r) wid r,
     heap := insertA st.heap r session,
     nextRef := r + 1 }, sid, wid)

/-- `QNGServer.getSessionStatus` (read-only; the handler renders the returned
    session's fields). -/
def getSessionStatus (st : ServerState) (sessionId : String) : Except String GoSession :=
  match sessionLookup st sessionId with
  | none => Except.error ("session not found: " ++ sessionId)
  | some session => Except.ok session

/-- `QNGServer.submitSignature` up to spawning the async continuation: reject
    unknown ids and sessions not awaiting a signature without touching any
    state; otherwise move the session to `running` and acknowledge. -/
def submitSignature (st : ServerState) (sessionId _signature : String) (now : Nat) :
    ServerState × Except String (List (String × String)) :=
  match registryLookup st sessionId with
  | none => (st, Except.error ("session not found: " ++ sessionId))
  | some ref =>
    match heapLookup st ref with
    | none => (st, Except.error ("session not found: " ++ sessionId))
    | some session =>
      if session.status ≠ "waiting_signature" then
        (st, Except.error "session not in waiting_signature status")
      else
        (updateSessionStatus st ref "running" "正在处理签名..." now,
         Except.ok [("session_id", session.id), ("status", "processing"),
                    ("message", "签名已提交，正在处理...")])

/-- States the server can reach: workflow creation (with fresh time-generated
    identifiers), signature submission, and the pointer mutations the async
    workers perform.  Freshness of the generated keys models non-colliding
    `UnixNano` reads. -/
inductive Reachable : ServerState → Prop where
  | init : Reachable initialServerState
  | exec (st : ServerState) (sidNano widNano : Nat) (message : String) (now : Nat)
      (hs : registryLookup st (sessionKey sidNano) = none)
      (hw : registryLookup st (workflowKey widNano) = none) :
      Reachable st → Reachable (executeWorkflow st sidNano widNano message now).1
  | submit (st : ServerState) (sessionId signature : String) (now : Nat) :
      Reachable st → Reachable (submitSignature st sessionId signature now).1
  | update (st : ServerState) (ref : Nat) (status message : String) (now : Nat) :
      Reachable st → Reachable (updateSessionStatus st ref status message now)
  | mutate (st : ServerState) (ref : Nat) (res : Option DataMap)
      (c : Option WorkflowContextMap) (sr : Option AuthRequest) :
      Reachable st → Reachable (setSessionResult st ref res c sr)

/-! ## General lemmas -/

theorem strAppend_cancel_left (p a b : String) (h : p ++ a = p ++ b) : a = b := by
  have hd : (p ++ a).data = (p ++ b).data := congrArg String.data h
  rw [String.data_append, String.data_append] at hd
  have hab : a.data = b.data := List.append_cancel_left hd
  cases a; cases b
  exact congrArg String.mk hab

theorem strAppend_ne_of_ne (p a b : String) (hab : a ≠ b) : p ++ a ≠ p ++ b :=
  fun h => hab (strAppend_cancel_left p a b h)

theorem sessionKey_ne_workflowKey (m n : Nat) : sessionKey m ≠ workflowKey n := by
  intro h
  have hd : (sessionKey m).data = (workflowKey n).data := congrArg String.data h
  rw [sessionKey, workflowKey, String.data_append, String.data_append] at hd
  have h1 : ("session_".data ++ (Nat.repr m).data).head? = some 's' := rfl
  rw [hd] at h1
  have h2 : ("workflow_".data ++ (Nat.repr n).data).head? = some 'w' := rfl
  rw [h2] at h1
  exact absurd h1 (by decide)

/-! ## Claim theorems -/

/-- C5 failing input: the stake task whose amount carries the
    use-upstream-output sentinel and depends on `task_1`. -/
def upstreamStakeTask : TaskMap :=
  [("id", Json.str "task_2"), ("type", Json.str "stake"),
   ("token", Json.str "MTK"), ("amount", Json.str "all_from_previous"),
   ("pool", Json.str "compound"), ("dependency_tx_id", Json.str "task_1"),
   ("description", Json.str "将兑换得到的MTK进行质押")]

/-- C5 failing input, swap variant. -/
def upstreamSwapTask : TaskMap :=
  [("id", Json.str "task_2"), ("type", Json.str "swap"),
   ("from_token", Json.str "MEER"), ("to_token", Json.str "MTK"),
   ("amount", Json.str "all_from_previous"),
   ("dependency_tx_id", Json.str "task_1")]

/-- C5: for a task whose amount is the `all_from_previous` sentinel, the built
    request uses the hard-coded constants `"1000"` (stake) and `"10"` (swap)
    for every execution-time data map whatsoever — the dependency task's
    actual output (carried in the data map, e.g. its transaction record) is
    never consulted, contradicting the specified substitution of the literal
    upstream output quantity. -/
theorem C5_upstream_amount_placeholder :
    (∀ data : DataMap, buildStakeRequestFromTask upstreamStakeTask data =
      Except.ok { token := "MTK", amount := "1000", action := "stake" }) ∧
    (∀ data : DataMap, buildSwapRequestFromTask upstreamSwapTask data =
      Except.ok { fromToken := "MEER", toToken := "MTK", amount := "10" }) :=
  ⟨fun _ => rfl, fun _ => rfl⟩

/-- C6: a signature below the 10-byte minimum (including the empty string,
    which the validator reports as missing) is rejected with an error and the
    chain-interaction trace stays empty — neither the simulated confirmation
    nor the RPC confirmation wait runs, whatever the chain would have
    answered. -/
theorem C6_short_signature_rejected :
    (∀ (rpcOutcome : Option (Except String TransactionReceipt)) (data : DataMap)
       (s : String), lookupA data "signature" = some (DVal.vstr s) → s ≠ "" →
       s.utf8ByteSize < 10 →
       signatureValidatorExecute rpcOutcome data = (Except.error "invalid signature", [])) ∧
    (∀ (rpcOutcome : Option (Except String TransactionReceipt)) (data : DataMap)
       (s : String), lookupA data "signature" = some (DVal.vstr s) → s = "" →
       signatureValidatorExecute rpcOutcome data =
         (Except.error "signature not found in input", [])) := by
  constructor
  · intro rpcOutcome data s hsig hne hlen
    unfold signatureValidatorExecute
    rw [hsig]
    dsimp only
    rw [if_neg hne, if_pos hlen]
  · intro rpcOutcome data s hsig hempty
    unfold signatureValidatorExecute
    rw [hsig]
    dsimp only
    rw [if_pos hempty]

/-- Witness for C6 at concrete inputs. -/
theorem C6_short_signature_rejected_witness :
    signatureValidatorExecute none [("signature", DVal.vstr "0xshort")] =
      (Except.error "invalid signature", []) ∧
    signatureValidatorExecute none [("signature", DVal.vstr "")] =
      (Except.error "signature not found in input", []) :=
  ⟨C6_short_signature_rejected.1 none _ "0xshort" rfl (by decide) (by decide),
   C6_short_signature_rejected.2 none _ "" rfl rfl⟩

/-- C2: resuming from a captured workflow context with any signature stores
    the signature under `"signature"` in the captured output's data, clears
    the needs-user-auth flag, re-enters the graph at exactly the first entry
    of the captured output's `NextNodes` with that data, and returns the data
    as the final result when `NextNodes` is empty. -/
theorem C2_resume_enters_captured_next_node
    (currentNode : String) (out : NodeOutput) (inp : NodeInput) (sig : String) :
    lookupA (insertA out.data "signature" (DVal.vstr sig)) "signature"
        = some (DVal.vstr sig) ∧
    ({ out with data := insertA out.data "signature" (DVal.vstr sig),
                needUserAuth := false } : NodeOutput).needUserAuth = false ∧
    (∀ n rest, out.nextNodes = n :: rest →
      continueWithSignature (some ⟨some currentNode, some out, some inp⟩) sig =
        Except.ok (ContinueResult.invokeAt n
          { data := insertA out.data "signature" (DVal.vstr sig),
            context := inp.context }
          { out with data := insertA out.data "signature" (DVal.vstr sig),
                     needUserAuth := false })) ∧
    (out.nextNodes = [] →
      continueWithSignature (some ⟨some currentNode, some out, some inp⟩) sig =
        Except.ok (ContinueResult.finalResult
          (insertA out.data "signature" (DVal.vstr sig))
          { out with data := insertA out.data "signature" (DVal.vstr sig),
                     needUserAuth := false })) := by
  refine ⟨?_, rfl, ?_, ?_⟩
  · rw [lookupA_insertA]
    simp
  · intro n rest h
    unfold continueWithSignature
    dsimp only
    rw [h]
  · intro h
    unfold continueWithSignature
    dsimp only
    rw [h]

/-- Witness for C2: a captured suspension of the swap executor resumes at the
    signature validator, and a context with no next nodes returns its data. -/
theorem C2_resume_enters_captured_next_node_witness :
    continueWithSignature
      (some ⟨some "swap_executor",
             some { data := [("user_message", DVal.vstr "m")],
                    nextNodes := ["signature_validator"], needUserAuth := true,
                    authRequest := none, completed := false },
             some { data := [("user_message", DVal.vstr "m")], context := [] }⟩)
      "0xsigned" =
      Except.ok (ContinueResult.invokeAt "signature_validator"
        { data := [("user_message", DVal.vstr "m"), ("signature", DVal.vstr "0xsigned")],
          context := [] }
        { data := [("user_message", DVal.vstr "m"), ("signature", DVal.vstr "0xsigned")],
          nextNodes := ["signature_validator"], needUserAuth := false,
          authRequest := none, completed := false }) ∧
    continueWithSignature
      (some ⟨some "stake_executor",
             some { data := [], nextNodes := [], needUserAuth := true,
                    authRequest := none, completed := false },
             some { data := [], context := [] }⟩) "0xsigned" =
      Except.ok (ContinueResult.finalResult [("signature", DVal.vstr "0xsigned")]
        { data := [("signature", DVal.vstr "0xsigned")], nextNodes := [],
          needUserAuth := false, authRequest := none, completed := false }) :=
  ⟨(C2_resume_enters_captured_next_node "swap_executor" _ _ "0xsigned").2.2.1
      "signature_validator" [] rfl,
   (C2_resume_enters_captured_next_node "stake_executor" _ _ "0xsigned").2.2.2 rfl⟩

theorem pollTick_confirmed_success (req : Int) (obs : TickObs)
    (r : TransactionReceipt) (h : pollTick req obs = TickOutcome.confirmed r) :
    r.success = true := by
  rcases obs with ⟨rec, blk⟩
  cases rec with
  | fetchErr => exact absurd h (by simp [pollTick])
  | notIncluded => exact absurd h (by simp [pollTick])
  | fetched r₀ =>
    by_cases hs : r₀.success
    · unfold pollTick at h
      dsimp only at h
      rw [if_neg (by simp [hs])] at h
      cases blk with
      | fetchErr => exact absurd h (by simp)
      | height cur =>
        dsimp only at h
        rcases hx : goSscanfHex r₀.blockNumber with _ | tb
        · rw [hx] at h
          exact absurd h (by simp)
        · rw [hx] at h
          dsimp only at h
          by_cases hc : cur - tb + 1 ≥ req
          · rw [if_pos hc] at h
            cases h
            exact hs
          · rw [if_neg hc] at h
            exact absurd h (by simp)
    · unfold pollTick at h
      dsimp only at h
      rw [if_pos (by simpa using hs)] at h
      exact absurd h (by simp)

/-- C4: per poll tick, a receipt-lookup error or an absent receipt retries; a
    receipt whose execution-status flag is failure is returned as a definitive
    error at once; a successful receipt is confirmed exactly when
    `currentHeight - receiptHeight + 1` reaches the threshold and otherwise
    polling continues; the loop swallows retry ticks (keeping polling until
    the caller's timeout/cancellation context ends the list), stops at the
    first fatal tick, and any confirmed receipt it returns carries the success
    flag. -/
theorem C4_confirmation_wait_protocol :
    (∀ (req : Int) (blk : BlockNumFetch),
       pollTick req ⟨ReceiptFetch.fetchErr, blk⟩ = TickOutcome.retry) ∧
    (∀ (req : Int) (blk : BlockNumFetch),
       pollTick req ⟨ReceiptFetch.notIncluded, blk⟩ = TickOutcome.retry) ∧
    (∀ (req : Int) (r : TransactionReceipt) (blk : BlockNumFetch),
       r.success = false →
       pollTick req ⟨ReceiptFetch.fetched r, blk⟩ = TickOutcome.failed r) ∧
    (∀ (req : Int) (r : TransactionReceipt) (cur tb : Int),
       r.success = true → goSscanfHex r.blockNumber = some tb →
       cur - tb + 1 ≥ req →
       pollTick req ⟨ReceiptFetch.fetched r, BlockNumFetch.height cur⟩ =
         TickOutcome.confirmed r) ∧
    (∀ (req : Int) (r : TransactionReceipt) (cur tb : Int),
       r.success = true → goSscanfHex r.blockNumber = some tb →
       cur - tb + 1 < req →
       pollTick req ⟨ReceiptFetch.fetched r, BlockNumFetch.height cur⟩ =
         TickOutcome.retry) ∧
    (∀ (req : Int) (obs : TickObs) (rest : List TickObs),
       pollTick req obs = TickOutcome.retry →
       clientWaitForConfirmation req (obs :: rest) =
         clientWaitForConfirmation req rest) ∧
    (∀ (req : Int) (obs : TickObs) (rest : List TickObs) (r : TransactionReceipt),
       pollTick req obs = TickOutcome.failed r →
       clientWaitForConfirmation req (obs :: rest) = some (TickOutcome.failed r)) ∧
    (∀ (req : Int) (ticks : List TickObs) (r : TransactionReceipt),
       clientWaitForConfirmation req ticks = some (TickOutcome.confirmed r) →
       r.success = true) := by
  refine ⟨?_, ?_, ?_, ?_, ?_, ?_, ?_, ?_⟩
  · intro req blk
    rfl
  · intro req blk
    rfl
  · intro req r blk hf
    unfold pollTick
    dsimp only
    rw [if_pos (by simp [hf])]
  · intro req r cur tb hs hx hc
    unfold pollTick
    dsimp only
    rw [if_neg (by simp [hs]), hx]
    dsimp only
    rw [if_pos hc]
  · intro req r cur tb hs hx hc
    unfold pollTick
    dsimp only
    rw [if_neg (by simp [hs]), hx]
    dsimp only
    rw [if_neg (not_le.mpr hc)]
  · intro req obs rest h
    show (match pollTick req obs with
          | TickOutcome.retry => clientWaitForConfirmation req rest
          | out => some out) = _
    rw [h]
  · intro req obs rest r h
    show (match pollTick req obs with
          | TickOutcome.retry => clientWaitForConfirmation req rest
          | out => some out) = some (TickOutcome.failed r)
    rw [h]
  · intro req ticks
    induction ticks with
    | nil =>
      intro r h
      exact absurd h (by simp [clientWaitForConfirmation])
    | cons obs rest ih =>
      intro r h
      rw [clientWaitForConfirmation] at h
      rcases hp : pollTick req obs with _ | r' | r'
      · rw [hp] at h
        exact ih r h
      · rw [hp] at h
        exact absurd h (by simp)
      · rw [hp] at h
        have : r' = r := by
          have := Option.some.inj h
          cases this
          rfl
        exact this ▸ pollTick_confirmed_success req obs r' hp

/-- Witness for C4 at concrete inputs: a failed receipt, a confirmed receipt
    two blocks deep, and a loop that retries an absent receipt before
    confirming. -/
theorem C4_confirmation_wait_protocol_witness :
    pollTick 1 ⟨ReceiptFetch.fetched (mkReceipt "0xtx" "0x10" "0x0"), BlockNumFetch.height 20⟩ =
      TickOutcome.failed (mkReceipt "0xtx" "0x10" "0x0") ∧
    pollTick 2 ⟨ReceiptFetch.fetched (mkReceipt "0xtx" "0x10" "0x1"), BlockNumFetch.height 17⟩ =
      TickOutcome.confirmed (mkReceipt "0xtx" "0x10" "0x1") ∧
    clientWaitForConfirmation 2
      [⟨ReceiptFetch.notIncluded, BlockNumFetch.fetchErr⟩,
       ⟨ReceiptFetch.fetched (mkReceipt "0xtx" "0x10" "0x1"), BlockNumFetch.height 17⟩] =
      some (TickOutcome.confirmed (mkReceipt "0xtx" "0x10" "0x1")) ∧
    (mkReceipt "0xtx" "0x10" "0x1").success = true :=
  ⟨C4_confirmation_wait_protocol.2.2.1 1 _ _ rfl,
   C4_confirmation_wait_protocol.2.2.2.1 2 _ 17 16 rfl rfl (by decide),
   by
     rw [C4_confirmation_wait_protocol.2.2.2.2.2.1 2
       ⟨ReceiptFetch.notIncluded, BlockNumFetch.fetchErr⟩
       [⟨ReceiptFetch.fetched (mkReceipt "0xtx" "0x10" "0x1"), BlockNumFetch.height 17⟩] rfl]
     rfl,
   C4_confirmation_wait_protocol.2.2.2.2.2.2.2 2
     [⟨ReceiptFetch.fetched (mkReceipt "0xtx" "0x10" "0x1"), BlockNumFetch.height 17⟩] _
     rfl⟩

/-- C9: submitting a signature for an unknown session id, or for a session
    whose status is not `waiting_signature`, is rejected with an error and the
    whole server state — registry and every session object — is returned
    unchanged. -/
theorem C9_submit_signature_rejections
    (st : ServerState) (sid sig : String) (now : Nat) :
    (registryLookup st sid = none →
       submitSignature st sid sig now =
         (st, Except.error ("session not found: " ++ sid))) ∧
    (∀ (ref : Nat) (s : GoSession), registryLookup st sid = some ref →
       heapLookup st ref = some s → s.status ≠ "waiting_signature" →
       submitSignature st sid sig now =
         (st, Except.error "session not in waiting_signature status")) := by
  constructor
  · intro h
    unfold submitSignature
    rw [h]
  · intro ref s href hs hstatus
    unfold submitSignature
    rw [href]
    dsimp only
    rw [hs]
    dsimp only
    rw [if_pos hstatus]

/-- Witness for C9: a freshly created session moved to `completed`, then a
    signature submission against it and against an unknown id. -/
theorem C9_submit_signature_rejections_witness :
    submitSignature
      (updateSessionStatus (executeWorkflow initialServerState 1 2 "msg" 0).1 0
        "completed" "工作流执行完成" 3)
      "session_1" "0xsignature" 9 =
      ((updateSessionStatus (executeWorkflow initialServerState 1 2 "msg" 0).1 0
        "completed" "工作流执行完成" 3),
       Except.error "session not in waiting_signature status") ∧
    submitSignature initialServerState "session_404" "0xsignature" 9 =
      (initialServerState, Except.error ("session not found: " ++ "session_404")) :=
  ⟨(C9_submit_signature_rejections _ "session_1" "0xsignature" 9).2 0
      { id := "session_1", workflowId := "workflow_2", status := "completed",
        message := "工作流执行完成", result := none, wfContext := none,
        signatureRequest := none, createdAt := 3, updatedAt := 3 }
      rfl rfl (by decide),
   (C9_submit_signature_rejections initialServerState "session_404" "0xsignature" 9).1 rfl⟩

theorem findExecutable_dep_completed (ty : String) (completed : List String)
    (tasks : List TaskMap) :
    ∀ (task : TaskMap) (d : String), findExecutable ty completed tasks = some task →
      lookupA task "dependency_tx_id" = some (Json.str d) →
      completed.contains d = true := by
  induction tasks with
  | nil =>
    intro task d h _
    exact absurd h (by simp [findExecutable])
  | cons t rest ih =>
    intro task d h hdep
    rw [findExecutable] at h
    by_cases hty : taskStr t "type" = some ty
    · rw [if_pos hty] at h
      by_cases hcomp : completed.contains ((taskStr t "id").getD "") = true
      · rw [if_pos hcomp] at h
        exact ih task d h hdep
      · rw [if_neg hcomp] at h
        rcases hdt : lookupA t "dependency_tx_id" with _ | v
        · rw [hdt] at h
          dsimp only at h
          injection h with h'
          subst h'
          rw [hdt] at hdep
          exact Option.noConfusion hdep
        · cases v with
          | null =>
            rw [hdt] at h
            dsimp only at h
            injection h with h'
            subst h'
            rw [hdt] at hdep
            injection hdep with h''
            exact Json.noConfusion h''
          | str depID =>
            rw [hdt] at h
            dsimp only at h
            by_cases hdc : completed.contains depID = true
            · rw [if_pos hdc] at h
              injection h with h'
              subst h'
              rw [hdt] at hdep
              injection hdep with h''
              injection h'' with h'''
              exact h''' ▸ hdc
            · rw [if_neg hdc] at h
              exact ih task d h hdep
          | bool b =>
            rw [hdt] at h
            exact ih task d h hdep
          | num raw =>
            rw [hdt] at h
            exact ih task d h hdep
          | arr xs =>
            rw [hdt] at h
            exact ih task d h hdep
          | obj fs =>
            rw [hdt] at h
            exact ih task d h hdep
    · rw [if_neg hty] at h
      exact ih task d h hdep

theorem findCurrentTaskOfType_dep_completed (ty : String) (data : DataMap)
    (task : TaskMap) (d : String)
    (h : findCurrentTaskOfType ty data = Except.ok task)
    (hdep : lookupA task "dependency_tx_id" = some (Json.str d)) :
    (completedOf data).contains d = true := by
  unfold findCurrentTaskOfType at h
  rcases ht : lookupA data "tasks" with _ | v
  · rw [ht] at h
    exact absurd h (by simp)
  · rw [ht] at h
    cases v with
    | vtasks tasks =>
      dsimp only at h
      rcases hf : findExecutable ty (completedOf data) tasks with _ | t
      · rw [hf] at h
        exact absurd h (by simp)
      · rw [hf] at h
        dsimp only at h
        injection h with h'
        subst h'
        exact findExecutable_dep_completed ty (completedOf data) tasks t d hf hdep
    | vnil => exact absurd h (by simp)
    | vstr s => exact absurd h (by simp)
    | vbool b => exact absurd h (by simp)
    | vstrs l => exact absurd h (by simp)

/-- C1: (i) whichever task the swap executor's selection returns, its
    dependency (when it names one) is recorded in `completed_tasks`; (ii) the
    same for the stake executor; (iii) for a two-task list with the single
    dependency edge A→B where A is the swap and B the stake, edge resolution
    after decomposition routes to A's executor and the stake executor finds no
    executable task (so B cannot leave Pending) while A is unconfirmed; and
    (iv) once A's id is recorded completed, B (not yet completed) becomes the
    selected stake task. -/
theorem C1_dependency_gating :
    (∀ (data : DataMap) (task : TaskMap) (d : String),
       findCurrentSwapTask data = Except.ok task →
       lookupA task "dependency_tx_id" = some (Json.str d) →
       (completedOf data).contains d = true) ∧
    (∀ (data : DataMap) (task : TaskMap) (d : String),
       findCurrentStakeTask data = Except.ok task →
       lookupA task "dependency_tx_id" = some (Json.str d) →
       (completedOf data).contains d = true) ∧
    (∀ (data : DataMap) (A B : TaskMap) (aId : String),
       lookupA data "tasks" = some (DVal.vtasks [A, B]) →
       taskStr A "type" = some "swap" →
       taskDepIsNil A = true →
       taskStr B "type" = some "stake" →
       lookupA B "dependency_tx_id" = some (Json.str aId) →
       (completedOf data).contains aId = false →
       determineNextNodes [A, B] = ["swap_executor"] ∧
       findCurrentStakeTask data = Except.error "no executable stake task found") ∧
    (∀ (data : DataMap) (A B : TaskMap) (aId bId : String),
       lookupA data "tasks" = some (DVal.vtasks [A, B]) →
       taskStr A "type" = some "swap" →
       taskStr B "type" = some "stake" →
       taskStr B "id" = some bId →
       lookupA B "dependency_tx_id" = some (Json.str aId) →
       (completedOf data).contains aId = true →
       (completedOf data).contains bId = false →
       findCurrentStakeTask data = Except.ok B) := by
  refine ⟨?_, ?_, ?_, ?_⟩
  · intro data task d h hdep
    exact findCurrentTaskOfType_dep_completed "swap" data task d h hdep
  · intro data task d h hdep
    exact findCurrentTaskOfType_dep_completed "stake" data task d h hdep
  · intro data A B aId hT hAty hAdep hBty hBdep hAnc
    constructor
    · have hnde : noDepExecutor [A, B] = some "swap_executor" := by
        rw [noDepExecutor, if_pos hAdep, hAty]
        rfl
      unfold determineNextNodes
      rw [hnde]
    · have hfe : findExecutable "stake" (completedOf data) [A, B] = none := by
        rw [findExecutable, if_neg (by rw [hAty]; decide)]
        rw [findExecutable, if_pos hBty]
        by_cases hbc : (completedOf data).contains ((taskStr B "id").getD "") = true
        · rw [if_pos hbc]
          rfl
        · rw [if_neg hbc, hBdep]
          dsimp only
          rw [if_neg (by rw [hAnc]; decide)]
          rfl
      unfold findCurrentStakeTask findCurrentTaskOfType
      rw [hT]
      dsimp only
      rw [hfe]
      rfl
  · intro data A B aId bId hT hAty hBty hBid hBdep hAc hBnc
    have hfe : findExecutable "stake" (completedOf data) [A, B] = some B := by
      rw [findExecutable, if_neg (by rw [hAty]; decide)]
      rw [findExecutable, if_pos hBty, hBid]
      dsimp only [Option.getD]
      rw [if_neg (show ¬(completedOf data).contains bId = true by rw [hBnc]; decide),
        hBdep]
      dsimp only
      rw [if_pos hAc]
    unfold findCurrentStakeTask findCurrentTaskOfType
    rw [hT]
    dsimp only
    rw [hfe]

/-- Witness data for C1: the swap task, the dependent stake task, and the data
    maps before and after the swap task's confirmation. -/
def c1TaskA : TaskMap :=
  [("id", Json.str "task_1"), ("type", Json.str "swap"),
   ("from_token", Json.str "MEER"), ("to_token", Json.str "MTK"),
   ("amount", Json.str "10"), ("dependency_tx_id", Json.null)]

def c1TaskB : TaskMap :=
  [("id", Json.str "task_2"), ("type", Json.str "stake"),
   ("token", Json.str "MTK"), ("amount", Json.str "all_from_previous"),
   ("pool", Json.str "compound"), ("dependency_tx_id", Json.str "task_1")]

def c1Data0 : DataMap :=
  [("user_message", DVal.vstr "兑换10MEER的MTK然后质押"),
   ("tasks", DVal.vtasks [c1TaskA, c1TaskB])]

def c1Data1 : DataMap :=
  [("user_message", DVal.vstr "兑换10MEER的MTK然后质押"),
   ("tasks", DVal.vtasks [c1TaskA, c1TaskB]),
   ("completed_tasks", DVal.vstrs ["task_1"]),
   ("task_1_tx_hash", DVal.vstr "0xaaaa")]

/-- Witness for C1 on the concrete two-task workflow. -/
theorem C1_dependency_gating_witness :
    (determineNextNodes [c1TaskA, c1TaskB] = ["swap_executor"] ∧
     findCurrentStakeTask c1Data0 = Except.error "no executable stake task found") ∧
    findCurrentStakeTask c1Data1 = Except.ok c1TaskB ∧
    (completedOf c1Data1).contains "task_1" = true :=
  ⟨C1_dependency_gating.2.2.1 c1Data0 c1TaskA c1TaskB "task_1"
     rfl rfl rfl rfl rfl rfl,
   C1_dependency_gating.2.2.2 c1Data1 c1TaskA c1TaskB "task_1" "task_2"
     rfl rfl rfl rfl rfl rfl rfl,
   C1_dependency_gating.2.1 c1Data1 c1TaskB "task_1"
     (C1_dependency_gating.2.2.2 c1Data1 c1TaskA c1TaskB "task_1" "task_2"
       rfl rfl rfl rfl rfl rfl rfl) rfl⟩

/-- C3: (i) on entry without the per-task `_approve_completed` flag the stake
    executor invokes only the approve-payload builder (never the stake
    builder), suspends for a user signature routed to the signature validator,
    records `<taskId>_current_step = approve` in the data, and the emitted
    auth request's action is `approve`; (ii) the stake-payload builder runs
    only when the task's `_approve_completed` flag is already recorded; (iii)
    after the approve signature is validated and its transaction confirmed,
    edge resolution (`checkDependentTasks`) routes back into the stake
    executor — not the next graph node — marking the approve sub-step
    completed. -/
theorem C3_approve_phase_precedes_stake :
    (∀ (cm : ContractManager) (data : DataMap) (task : TaskMap) (req : StakeRequest),
       findCurrentStakeTask data = Except.ok task →
       buildStakeRequestFromTask task data = Except.ok req →
       lookupA data ((taskStr task "id").getD "" ++ "_approve_completed") = none →
       (stakeExecutorExecute cm data).2 = [BuildCall.approve req] ∧
       ∀ out : NodeOutput, (stakeExecutorExecute cm data).1 = Except.ok out →
         out.needUserAuth = true ∧ out.nextNodes = ["signature_validator"] ∧
         lookupA out.data ((taskStr task "id").getD "" ++ "_current_step") =
           some (DVal.vstr "approve") ∧
         lookupA (out.authRequest.getD []) "action" = some "approve") ∧
    (∀ (cm : ContractManager) (data : DataMap) (req : StakeRequest),
       BuildCall.stake req ∈ (stakeExecutorExecute cm data).2 →
       ∃ (task : TaskMap) (v : DVal), findCurrentStakeTask data = Except.ok task ∧
         lookupA data ((taskStr task "id").getD "" ++ "_approve_completed") = some v) ∧
    (∀ (data : DataMap) (hash : String) (tasks : List TaskMap) (tid : String),
       lookupA data "tasks" = some (DVal.vtasks tasks) →
       findApproveStepTask tasks data = some tid →
       ∃ d' : DataMap, checkDependentTasks data hash = some (["stake_executor"], d') ∧
         lookupA d' (tid ++ "_approve_completed") = some (DVal.vbool true) ∧
         lookupA d' (tid ++ "_approve_tx_hash") = some (DVal.vstr hash) ∧
         lookupA d' (tid ++ "_current_step") = none) := by
  refine ⟨?_, ?_, ?_⟩
  · intro cm data task req hfind hreq hflag
    rcases ha : cm.buildApproveTransaction req with e | txd
    · have hstep : stakeExecutorExecute cm data =
          (Except.error ("failed to build approve transaction: " ++ e),
           [BuildCall.approve req]) := by
        unfold stakeExecutorExecute
        rw [hfind]
        dsimp only
        rw [hreq]
        dsimp only
        rw [if_pos (by rw [hflag]; rfl), ha]
      rw [hstep]
      exact ⟨rfl, fun out hout => absurd hout (by simp)⟩
    · have hstep : stakeExecutorExecute cm data =
          (Except.ok
            { data := insertA data ((taskStr task "id").getD "" ++ "_current_step")
                (DVal.vstr "approve"),
              nextNodes := ["signature_validator"], needUserAuth := true,
              authRequest := some (approveAuthRequest req txd), completed := false },
           [BuildCall.approve req]) := by
        unfold stakeExecutorExecute
        rw [hfind]
        dsimp only
        rw [hreq]
        dsimp only
        rw [if_pos (by rw [hflag]; rfl), ha]
      rw [hstep]
      refine ⟨rfl, fun out hout => ?_⟩
      injection hout with h'
      subst h'
      refine ⟨rfl, rfl, ?_, ?_⟩
      · rw [lookupA_insertA, if_pos rfl]
      · rfl
  · intro cm data req hmem
    unfold stakeExecutorExecute at hmem
    rcases hf : findCurrentStakeTask data with e | task
    · rw [hf] at hmem
      exact absurd hmem (by simp)
    · rw [hf] at hmem
      dsimp only at hmem
      rcases hb : buildStakeRequestFromTask task data with e | req₀
      · rw [hb] at hmem
        exact absurd hmem (by simp)
      · rw [hb] at hmem
        dsimp only at hmem
        by_cases hflag :
            (lookupA data ((taskStr task "id").getD "" ++ "_approve_completed")).isNone = true
        · rw [if_pos hflag] at hmem
          rcases ha : cm.buildApproveTransaction req₀ with e | txd
          · rw [ha] at hmem
            exact absurd hmem (by simp)
          · rw [ha] at hmem
            exact absurd hmem (by simp)
        · rcases hl : lookupA data ((taskStr task "id").getD "" ++ "_approve_completed")
            with _ | v
          · exact absurd (by rw [hl]; rfl) hflag
          · exact ⟨task, v, rfl, hl⟩
  · intro data hash tasks tid hT happ
    refine ⟨eraseA
        (insertA (insertA data (tid ++ "_approve_completed") (DVal.vbool true))
          (tid ++ "_approve_tx_hash") (DVal.vstr hash))
        (tid ++ "_current_step"), ?_, ?_, ?_, ?_⟩
    · unfold checkDependentTasks
      rw [hT]
      dsimp only
      rw [happ]
    · rw [lookupA_eraseA_ne _ _ _ (strAppend_ne_of_ne tid _ _ (by decide))]
      rw [lookupA_insertA, if_neg (strAppend_ne_of_ne tid _ _ (by decide))]
      rw [lookupA_insertA, if_pos rfl]
    · rw [lookupA_eraseA_ne _ _ _ (strAppend_ne_of_ne tid _ _ (by decide))]
      rw [lookupA_insertA, if_pos rfl]
    · exact lookupA_eraseA_self _ _

/-- Witness data for C3: an independent stake task, a contract manager, and a
    data map whose approve sub-step is pending. -/
def c3Task : TaskMap :=
  [("id", Json.str "task_1"), ("type", Json.str "stake"),
   ("token", Json.str "MTK"), ("amount", Json.str "100"),
   ("pool", Json.str "compound"), ("dependency_tx_id", Json.null)]

def c3Cm : ContractManager :=
  { buildSwapTransaction := fun _ =>
      Except.ok ⟨"0xswapcontract", "0x0", "0xa4821719", "0x186A0", "0x3B9ACA00"⟩,
    buildApproveTransaction := fun _ =>
      Except.ok ⟨"0xmtkcontract", "0x0", "0x095ea7b3", "0x1FBBF", "0x3B9ACA00"⟩,
    buildStakeTransaction := fun _ =>
      Except.ok ⟨"0xstakingcontract", "0x0", "0xa694fc3a", "0x30D40", "0x3B9ACA00"⟩ }

def c3Data : DataMap :=
  [("tasks", DVal.vtasks [c3Task]), ("completed_tasks", DVal.vstrs [])]

def c3DataApproving : DataMap :=
  [("tasks", DVal.vtasks [c3Task]), ("completed_tasks", DVal.vstrs []),
   ("task_1_current_step", DVal.vstr "approve"),
   ("transaction_hash", DVal.vstr "0xapprovetxhash")]

/-- Witness for C3 on the concrete stake workflow. -/
theorem C3_approve_phase_precedes_stake_witness :
    (stakeExecutorExecute c3Cm c3Data).2 =
      [BuildCall.approve { token := "MTK", amount := "100", action := "stake" }] ∧
    (∃ d' : DataMap,
      checkDependentTasks c3DataApproving "0xapprovetxhash" =
        some (["stake_executor"], d') ∧
      lookupA d' ("task_1" ++ "_approve_completed") = some (DVal.vbool true) ∧
      lookupA d' ("task_1" ++ "_approve_tx_hash") = some (DVal.vstr "0xapprovetxhash") ∧
      lookupA d' ("task_1" ++ "_current_step") = none) :=
  ⟨(C3_approve_phase_precedes_stake.1 c3Cm c3Data c3Task
      { token := "MTK", amount := "100", action := "stake" } rfl rfl rfl).1,
   C3_approve_phase_precedes_stake.2.2 c3DataApproving "0xapprovetxhash"
     [c3Task] "task_1" rfl rfl⟩

set_option maxRecDepth 10000

/-- C8 counterexample input: a model response whose JSON object is followed by
    prose containing another brace pair. -/
def c8Response : String :=
  "\x7b\"tasks\": [\x7b\"id\": \"task_1\", \"type\": \"stake\", \"token\": \"MTK\", \"amount\": \"5\", \"pool\": \"compound\", \"dependency_tx_id\": null\x7d]\x7d Note: braces \x7blike this\x7d in prose."

/-- The span the code extracts from `c8Response` (first `\x7b` to last
    `\x7d`), which is not valid JSON. -/
def c8CodeSpan : String :=
  "\x7b\"tasks\": [\x7b\"id\": \"task_1\", \"type\": \"stake\", \"token\": \"MTK\", \"amount\": \"5\", \"pool\": \"compound\", \"dependency_tx_id\": null\x7d]\x7d Note: braces \x7blike this\x7d"

/-- The first balanced brace span of `c8Response` (valid JSON). -/
def c8BalancedSpan : String :=
  "\x7b\"tasks\": [\x7b\"id\": \"task_1\", \"type\": \"stake\", \"token\": \"MTK\", \"amount\": \"5\", \"pool\": \"compound\", \"dependency_tx_id\": null\x7d]\x7d"

/-- The task the spec-described pipeline decodes from `c8Response`. -/
def c8SpecTask : TaskMap :=
  [("id", Json.str "task_1"), ("type", Json.str "stake"),
   ("token", Json.str "MTK"), ("amount", Json.str "5"),
   ("pool", Json.str "compound"), ("dependency_tx_id", Json.null)]

/-- C8 counterexample: on `c8Response` the decomposer does not extract the
    first balanced brace span — it takes first `\x7b` to last `\x7d`, whose
    parse fails, so it returns the fallback result `[]` for user text
    `"hello"`, while the pipeline the claim describes parses the balanced span
    into one stake task; the two disagree. -/
theorem C8_counterexample_span_extraction :
    extractJsonSpan c8Response = some c8CodeSpan ∧
    firstBalancedBraceSpan c8Response = some c8BalancedSpan ∧
    c8CodeSpan ≠ c8BalancedSpan ∧
    parseTasksFromResponse c8Response "hello" = [] ∧
    specParseTasksFromResponse c8Response "hello" = [c8SpecTask] ∧
    parseTasksFromResponse c8Response "hello" ≠
      specParseTasksFromResponse c8Response "hello" := by
  refine ⟨rfl, rfl, by decide, rfl, rfl, ?_⟩
  intro h
  rw [show parseTasksFromResponse c8Response "hello" = ([] : List TaskMap) from rfl] at h
  rw [show specParseTasksFromResponse c8Response "hello" = [c8SpecTask] from rfl] at h
  exact List.noConfusion h

/-- C8 amended: the decomposer extracts the span from the first opening brace
    to the last closing brace of the response (not the first balanced span);
    when extraction fails, that span fails to unmarshal/validate (including an
    unsupported token pair), the result is the deterministic pattern parser
    applied to the original user text — never to the model's prose; when the
    span parses and validates, its task list is returned as-is. -/
theorem C8_first_to_last_brace_then_fallback (response userMsg : String) :
    (extractJsonSpan response = none →
       parseTasksFromResponse response userMsg = fallbackParseFromText userMsg) ∧
    (∀ jsonStr : String, extractJsonSpan response = some jsonStr →
       tasksOfJsonStr jsonStr = none →
       parseTasksFromResponse response userMsg = fallbackParseFromText userMsg) ∧
    (∀ (jsonStr : String) (taskList : List TaskMap),
       extractJsonSpan response = some jsonStr →
       tasksOfJsonStr jsonStr = some taskList →
       parseTasksFromResponse response userMsg = taskList) := by
  refine ⟨?_, ?_, ?_⟩
  · intro h
    unfold parseTasksFromResponse
    rw [h]
  · intro j h hj
    unfold parseTasksFromResponse
    rw [h]
    dsimp only
    rw [hj]
  · intro j ts h hj
    unfold parseTasksFromResponse
    rw [h]
    dsimp only
    rw [hj]

/-- C8 witness input: a response with surrounding prose and a well-formed
    supported task list. -/
def c8GoodResponse : String :=
  "Here is the plan: \x7b\"tasks\": [\x7b\"id\": \"task_1\", \"type\": \"swap\", \"from_token\": \"MEER\", \"to_token\": \"MTK\", \"amount\": \"10\", \"dependency_tx_id\": null\x7d]\x7d Sign the transaction."

def c8GoodSpan : String :=
  "\x7b\"tasks\": [\x7b\"id\": \"task_1\", \"type\": \"swap\", \"from_token\": \"MEER\", \"to_token\": \"MTK\", \"amount\": \"10\", \"dependency_tx_id\": null\x7d]\x7d"

def c8GoodTask : TaskMap :=
  [("id", Json.str "task_1"), ("type", Json.str "swap"),
   ("from_token", Json.str "MEER"), ("to_token", Json.str "MTK"),
   ("amount", Json.str "10"), ("dependency_tx_id", Json.null)]

/-- Witness for the amended C8 at concrete inputs: a parse success returns the
    decoded tasks, and the counterexample input falls back to the pattern
    parser over the user text. -/
theorem C8_first_to_last_brace_then_fallback_witness :
    parseTasksFromResponse c8GoodResponse "whatever" = [c8GoodTask] ∧
    parseTasksFromResponse c8Response "hello" = fallbackParseFromText "hello" :=
  ⟨(C8_first_to_last_brace_then_fallback c8GoodResponse "whatever").2.2
      c8GoodSpan [c8GoodTask] rfl rfl,
   (C8_first_to_last_brace_then_fallback c8Response "hello").2.1
      c8CodeSpan rfl rfl⟩

/-! ### Registry invariants for C10 -/

/-- Every registered key resolves to a session whose own two identifiers are
    registered back to the same heap reference. -/
def DualKeyed (st : ServerState) : Prop :=
  ∀ (k : String) (r : Nat), registryLookup st k = some r →
    ∃ s : GoSession, heapLookup st r = some s ∧ s.id ≠ s.workflowId ∧
      registryLookup st s.id = some r ∧ registryLookup st s.workflowId = some r

/-- Registered references are below the allocator counter. -/
def RefsBounded (st : ServerState) : Prop :=
  ∀ (k : String) (r : Nat), registryLookup st k = some r → r < st.nextRef

theorem inv_heapModify (st : ServerState) (ref : Nat) (f : GoSession → GoSession)
    (hf : ∀ s, (f s).id = s.id ∧ (f s).workflowId = s.workflowId)
    (h : DualKeyed st ∧ RefsBounded st) :
    DualKeyed (heapModify st ref f) ∧ RefsBounded (heapModify st ref f) := by
  obtain ⟨hd, hb⟩ := h
  unfold heapModify
  rcases hh : lookupA st.heap ref with _ | s₀
  · exact ⟨hd, hb⟩
  · dsimp only
    constructor
    · intro k r hk
      have hk' : registryLookup st k = some r := hk
      obtain ⟨s, hs, hne, hid, hwf⟩ := hd k r hk'
      by_cases hr : r = ref
      · subst hr
        have hss : s = s₀ := by
          have hs2 : lookupA st.heap r = some s := hs
          rw [hs2] at hh
          exact Option.some.inj hh
        subst hss
        refine ⟨f s, ?_, ?_, ?_, ?_⟩
        · show lookupA (insertA st.heap r (f s)) r = some (f s)
          rw [lookupA_insertA, if_pos rfl]
        · rw [(hf s).1, (hf s).2]
          exact hne
        · show registryLookup st (f s).id = some r
          rw [(hf s).1]
          exact hid
        · show registryLookup st (f s).workflowId = some r
          rw [(hf s).2]
          exact hwf
      · refine ⟨s, ?_, hne, hid, hwf⟩
        show lookupA (insertA st.heap ref (f s₀)) r = some s
        rw [lookupA_insertA, if_neg hr]
        exact hs
    · intro k r hk
      exact hb k r hk

theorem inv_exec (st : ServerState) (sidNano widNano : Nat) (message : String)
    (now : Nat)
    (hs : registryLookup st (sessionKey sidNano) = none)
    (hw : registryLookup st (workflowKey widNano) = none)
    (h : DualKeyed st ∧ RefsBounded st) :
    DualKeyed (executeWorkflow st sidNano widNano message now).1 ∧
    RefsBounded (executeWorkflow st sidNano widNano message now).1 := by
  obtain ⟨hd, hb⟩ := h
  have hsw : sessionKey sidNano ≠ workflowKey widNano :=
    sessionKey_ne_workflowKey sidNano widNano
  constructor
  · intro k r hk
    have hk' : lookupA (insertA (insertA st.registry (sessionKey sidNano) st.nextRef)
        (workflowKey widNano) st.nextRef) k = some r := hk
    rw [lookupA_insertA] at hk'
    by_cases hkw : k = workflowKey widNano
    · rw [if_pos hkw] at hk'
      have hr : r = st.nextRef := (Option.some.inj hk').symm
      subst hr
      refine ⟨{ id := sessionKey sidNano, workflowId := workflowKey widNano,
                  status := "pending", message := message, result := none,
                  wfContext := none, signatureRequest := none,
                  createdAt := now, updatedAt := now }, ?_, hsw, ?_, ?_⟩
      · show lookupA (insertA st.heap st.nextRef _) st.nextRef = _
        rw [lookupA_insertA, if_pos rfl]
      · show lookupA (insertA (insertA st.registry (sessionKey sidNano) st.nextRef)
            (workflowKey widNano) st.nextRef) (sessionKey sidNano) = some st.nextRef
        rw [lookupA_insertA, if_neg hsw, lookupA_insertA, if_pos rfl]
      · show lookupA (insertA (insertA st.registry (sessionKey sidNano) st.nextRef)
            (workflowKey widNano) st.nextRef) (workflowKey widNano) = some st.nextRef
        rw [lookupA_insertA, if_pos rfl]
    · rw [if_neg hkw, lookupA_insertA] at hk'
      by_cases hks : k = sessionKey sidNano
      · rw [if_pos hks] at hk'
        have hr : r = st.nextRef := (Option.some.inj hk').symm
        subst hr
        refine ⟨{ id := sessionKey sidNano, workflowId := workflowKey widNano,
                  status := "pending", message := message, result := none,
                  wfContext := none, signatureRequest := none,
                  createdAt := now, updatedAt := now }, ?_, hsw, ?_, ?_⟩
        · show lookupA (insertA st.heap st.nextRef _) st.nextRef = _
          rw [lookupA_insertA, if_pos rfl]
        · show lookupA (insertA (insertA st.registry (sessionKey sidNano) st.nextRef)
              (workflowKey widNano) st.nextRef) (sessionKey sidNano) = some st.nextRef
          rw [lookupA_insertA, if_neg hsw, lookupA_insertA, if_pos rfl]
        · show lookupA (insertA (insertA st.registry (sessionKey sidNano) st.nextRef)
              (workflowKey widNano) st.nextRef) (workflowKey widNano) = some st.nextRef
          rw [lookupA_insertA, if_pos rfl]
      · rw [if_neg hks] at hk'
        obtain ⟨s, hsheap, hne, hid, hwf⟩ := hd k r hk'
        have hrb : r < st.nextRef := hb k r hk'
        have hids : s.id ≠ sessionKey sidNano := by
          intro hh
          rw [hh, hs] at hid
          exact Option.noConfusion hid
        have hidw : s.id ≠ workflowKey widNano := by
          intro hh
          rw [hh, hw] at hid
          exact Option.noConfusion hid
        have hwfs : s.workflowId ≠ sessionKey sidNano := by
          intro hh
          rw [hh, hs] at hwf
          exact Option.noConfusion hwf
        have hwfw : s.workflowId ≠ workflowKey widNano := by
          intro hh
          rw [hh, hw] at hwf
          exact Option.noConfusion hwf
        refine ⟨s, ?_, hne, ?_, ?_⟩
        · show lookupA (insertA st.heap st.nextRef _) r = some s
          rw [lookupA_insertA, if_neg (Nat.ne_of_lt hrb)]
          exact hsheap
        · show lookupA (insertA (insertA st.registry (sessionKey sidNano) st.nextRef)
              (workflowKey widNano) st.nextRef) s.id = some r
          rw [lookupA_insertA, if_neg hidw, lookupA_insertA, if_neg hids]
          exact hid
        · show lookupA (insertA (insertA st.registry (sessionKey sidNano) st.nextRef)
              (workflowKey widNano) st.nextRef) s.workflowId = some r
          rw [lookupA_insertA, if_neg hwfw, lookupA_insertA, if_neg hwfs]
          exact hwf
  · intro k r hk
    have hk' : lookupA (insertA (insertA st.registry (sessionKey sidNano) st.nextRef)
        (workflowKey widNano) st.nextRef) k = some r := hk
    show r < st.nextRef + 1
    rw [lookupA_insertA] at hk'
    by_cases hkw : k = workflowKey widNano
    · rw [if_pos hkw] at hk'
      have hr : r = st.nextRef := (Option.some.inj hk').symm
      subst hr
      exact Nat.lt_succ_self _
    · rw [if_neg hkw, lookupA_insertA] at hk'
      by_cases hks : k = sessionKey sidNano
      · rw [if_pos hks] at hk'
        have hr : r = st.nextRef := (Option.some.inj hk').symm
        subst hr
        exact Nat.lt_succ_self _
      · rw [if_neg hks] at hk'
        exact Nat.lt_succ_of_lt (hb k r hk')

theorem reachable_inv (st : ServerState) (h : Reachable st) :
    DualKeyed st ∧ RefsBounded st := by
  induction h with
  | init =>
    constructor
    · intro k r hk
      exact absurd hk (by simp [registryLookup, initialServerState, lookupA])
    · intro k r hk
      exact absurd hk (by simp [registryLookup, initialServerState, lookupA])
  | exec st sidNano widNano message now hs hw _ ih =>
    exact inv_exec st sidNano widNano message now hs hw ih
  | submit st sessionId signature now _ ih =>
    unfold submitSignature
    rcases hr : registryLookup st sessionId with _ | ref
    · exact ih
    · dsimp only
      rcases hh : heapLookup st ref with _ | s
      · exact ih
      · dsimp only
        by_cases hst : s.status ≠ "waiting_signature"
        · rw [if_pos hst]
          exact ih
        · rw [if_neg hst]
          exact inv_heapModify st ref _ (fun s => ⟨rfl, rfl⟩) ih
  | update st ref status message now _ ih =>
    exact inv_heapModify st ref _ (fun s => ⟨rfl, rfl⟩) ih
  | mutate st ref res c sr _ ih =>
    exact inv_heapModify st ref _ (fun s => ⟨rfl, rfl⟩) ih

/-- C10: in every reachable server state, any registry key that resolves to a
    session resolves it through a heap reference that the session's own
    session id and workflow id also map to; both identifiers are distinct keys
    of the registry and both dereference — for status queries, signature
    submission and long-polls alike — to the same session object in the same
    state. -/
theorem C10_dual_keyed_session_registry :
    ∀ st : ServerState, Reachable st →
      ∀ (k : String) (r : Nat) (s : GoSession),
        registryLookup st k = some r → heapLookup st r = some s →
        s.id ≠ s.workflowId ∧
        registryLookup st s.id = some r ∧
        registryLookup st s.workflowId = some r ∧
        sessionLookup st s.id = some s ∧
        sessionLookup st s.workflowId = some s ∧
        getSessionStatus st s.id = Except.ok s ∧
        getSessionStatus st s.workflowId = Except.ok s := by
  intro st h k r s hk hr
  obtain ⟨hd, _⟩ := reachable_inv st h
  obtain ⟨s', hs', hne', hid', hwf'⟩ := hd k r hk
  have hss : s' = s := by
    rw [hr] at hs'
    exact (Option.some.inj hs').symm
  subst hss
  have hsl1 : sessionLookup st s'.id = some s' := by
    unfold sessionLookup
    rw [hid']
    exact hr
  have hsl2 : sessionLookup st s'.workflowId = some s' := by
    unfold sessionLookup
    rw [hwf']
    exact hr
  refine ⟨hne', hid', hwf', hsl1, hsl2, ?_, ?_⟩
  · unfold getSessionStatus
    rw [hsl1]
  · unfold getSessionStatus
    rw [hsl2]

/-- Witness server state for C10: one workflow created at nano ticks 7/8. -/
def c10State : ServerState :=
  (executeWorkflow initialServerState 7 8 "兑换10MEER的MTK然后质押" 100).1

def c10Session : GoSession :=
  { id := "session_7", workflowId := "workflow_8", status := "pending",
    message := "兑换10MEER的MTK然后质押", result := none, wfContext := none,
    signatureRequest := none, createdAt := 100, updatedAt := 100 }

/-- Witness for C10: both generated identifiers of the created session resolve
    to the same session object. -/
theorem C10_dual_keyed_session_registry_witness :
    c10Session.id ≠ c10Session.workflowId ∧
    registryLookup c10State c10Session.id = some 0 ∧
    registryLookup c10State c10Session.workflowId = some 0 ∧
    sessionLookup c10State c10Session.id = some c10Session ∧
    sessionLookup c10State c10Session.workflowId = some c10Session ∧
    getSessionStatus c10State c10Session.id = Except.ok c10Session ∧
    getSessionStatus c10State c10Session.workflowId = Except.ok c10Session :=
  C10_dual_keyed_session_registry c10State
    (Reachable.exec initialServerState 7 8 "兑换10MEER的MTK然后质押" 100 rfl rfl
      Reachable.init)
    "session_7" 0 c10Session rfl rfl

end QngAgent
